import Mathlib

/-!
Verification development for the `dynamic_quant_mha` kernel
(`kernels/src/kernels/dynamic_quant_mha.cpp`): a shallow embedding of the
descriptor validator (`dynamic_quant_mha_kd_t::init`), the workspace sizing
function (`dynamic_quant_mha_k_t::get_workspace_size`) and the orchestration
logic of `dynamic_quant_mha_k_t::execute`, together with theorems about
shape validation, workspace layout, mask padding, value-buffer zero filling,
dynamic-dimension resolution and determinism of the execute call.

The four JIT micro-kernels (K-transpose, V-transpose+quantize,
QK+softmax+quantize, AV+quantize) are external collaborators consumed
through a "configure once, invoke per tile" contract; they are modelled as
opaque functions from their runtime-parameter structures to the values they
write, mirroring the `rt_data_t` structures the source fills in.
-/

namespace DynQuantMha

/-! ## Round-up padding, `pad_to(x, k)` from the kernel utility header -/

/-- Transliteration of `pad_to(x, k)`: round `x` up to the next multiple
of `k` (for `k > 0`). -/
def pad_to (x k : Nat) : Nat := (x + k - 1) / k * k

theorem le_pad_to {k : Nat} (hk : 0 < k) (x : Nat) : x ≤ pad_to x k := by
  unfold pad_to
  have h1 := Nat.div_add_mod (x + k - 1) k
  have h2 : (x + k - 1) % k < k := Nat.mod_lt _ hk
  have h3 : (x + k - 1) / k * k = k * ((x + k - 1) / k) := Nat.mul_comm _ _
  rw [h3]
  generalize hq : k * ((x + k - 1) / k) = m at h1 ⊢
  generalize hr : (x + k - 1) % k = r at h1 h2
  omega

theorem dvd_pad_to (x k : Nat) : k ∣ pad_to x k :=
  ⟨(x + k - 1) / k, Nat.mul_comm _ _⟩

theorem pad_to_le {k : Nat} (hk : 0 < k) {x m : Nat} (hd : k ∣ m) (hx : x ≤ m) :
    pad_to x k ≤ m := by
  obtain ⟨t, rfl⟩ := hd
  show (x + k - 1) / k * k ≤ k * t
  have hq : (x + k - 1) / k < t + 1 := by
    rw [Nat.div_lt_iff_lt_mul hk]
    have h0 : 0 < x + k := Nat.lt_of_lt_of_le hk (Nat.le_add_left k x)
    have h1 : x + k - 1 < x + k := Nat.sub_lt h0 Nat.one_pos
    have h2 : x + k ≤ k * t + k := Nat.add_le_add_right hx k
    have h3 : (t + 1) * k = k * t + k := by ring
    calc x + k - 1 < x + k := h1
      _ ≤ k * t + k := h2
      _ = (t + 1) * k := h3.symm
  calc (x + k - 1) / k * k ≤ t * k := Nat.mul_le_mul_right k (Nat.lt_succ_iff.mp hq)
    _ = k * t := Nat.mul_comm t k

theorem pad_to_mono {x y : Nat} (k : Nat) (h : x ≤ y) : pad_to x k ≤ pad_to y k :=
  Nat.mul_le_mul_right k (Nat.div_le_div_right (by omega))

theorem pad_to_16_le_64 (x : Nat) : pad_to x 16 ≤ pad_to x 64 :=
  pad_to_le (by omega) (dvd_trans (by decide) (dvd_pad_to x 64)) (le_pad_to (by omega) x)

theorem pad_to_4_le_64 (x : Nat) : pad_to x 4 ≤ pad_to x 64 :=
  pad_to_le (by omega) (dvd_trans (by decide) (dvd_pad_to x 64)) (le_pad_to (by omega) x)

theorem pad_to_eq_iff_dvd {k : Nat} (hk : 0 < k) (x : Nat) :
    pad_to x k = x ↔ k ∣ x := by
  constructor
  · intro h
    rw [← h]
    exact dvd_pad_to x k
  · rintro ⟨t, rfl⟩
    show (k * t + k - 1) / k * k = k * t
    have h1 : k * t + k - 1 = k * t + (k - 1) := by omega
    have h2 : (k * t + (k - 1)) / k = t + (k - 1) / k := Nat.mul_add_div hk t (k - 1)
    have h3 : (k - 1) / k = 0 := Nat.div_eq_of_lt (by omega)
    rw [h1, h2, h3, Nat.add_zero, Nat.mul_comm]

/-- Number of iterations of a `for (j = 0; j < n; j += 16)` loop. -/
def num_blk16 (n : Nat) : Nat := (n + 15) / 16

theorem pad_to_16_eq (n : Nat) : pad_to n 16 = num_blk16 n * 16 := rfl

/-! ## Tensor slot names and data types

The tensor slot enumeration (`mha_dense_io`) and element-type enumeration
(`data_type`) from the surrounding framework, restricted to the members this
kernel touches. -/

inductive dq_io where
  | SRC_Q | SRC_K | SRC_V | DST | BINARY_ADD
  | Q_SCALE | K_SCALE | V_SCALE | DST_SCALE
  | Q_ZP | K_ZP | V_ZP | DST_ZP
  | SRC_DST_SCALE | SRC_DST_ZP
  | BATCH_SIZE | HEAD_NUM | HEAD_SIZE | M | N
  | WORKSPACE
  deriving DecidableEq, Repr

inductive data_type where
  | s8 | u8 | fp32 | bf16 | s32 | undef
  deriving DecidableEq, Repr

/-- Operator descriptor metadata as seen by `dynamic_quant_mha_kd_t::init`:
attribute map, per-slot shapes, per-slot element types. A slot that is not
declared has shape `[]` (as produced by `get_tensor_shapes`, which
default-constructs entries up to `mha_dense_io_MAX`). -/
structure operator_desc where
  attrs : String → Option String
  shapes : dq_io → List Int
  dtypes : dq_io → data_type

def approx_exp_key : String := "approx_exp"
def stable_softmax_key : String := "stable_softmax"
def true_attr_val : String := "True"
def false_attr_val : String := "False"

/-- Transliteration of `dynamic_quant_mha_kd_t::init`. `amx` stands for the
externally detected `isa_available(amx_int8)`. The `&&` chain keeps the
source's check order (hardware first, then the attribute checks, then the
shape checks of lines 55-70 — including the source's pairing of the `M` test
with the `HEAD_SIZE` slot and vice versa at lines 57-58 — then the
zero-point/static-scale emptiness checks, then the dtype checks);
`&&` short-circuits left to right as `KERNEL_INIT_CHECK` returns early.
Out-of-range indexing of a shape vector (undefined behaviour in the C++
source) is modelled with `getD _ 0`. -/
def dynamic_quant_mha_kd_init (amx : Bool) (d : operator_desc) : Bool :=
  let shapes := d.shapes
  let dtypes := d.dtypes
  let batch_size : Int := (shapes dq_io.SRC_Q).getD 0 0
  let head_num : Int := (shapes dq_io.SRC_Q).getD 2 0
  let M : Int := (shapes dq_io.SRC_Q).getD 1 0
  let head_size : Int := (shapes dq_io.SRC_Q).getD 3 0
  let N : Int := (shapes dq_io.SRC_K).getD 1 0
  amx
  && (d.attrs approx_exp_key == some true_attr_val)
  && (d.attrs stable_softmax_key == some false_attr_val)
  && (decide (batch_size > 0) || shapes dq_io.BATCH_SIZE == [1])
  && (decide (head_num > 0) || shapes dq_io.HEAD_NUM == [1])
  && (decide (M > 0) || shapes dq_io.HEAD_SIZE == [1])
  && (decide (head_size > 0) || shapes dq_io.M == [1])
  && (decide (N > 0) || shapes dq_io.N == [1])
  && (shapes dq_io.SRC_Q == [batch_size, M, head_num, head_size])
  && (shapes dq_io.SRC_K == [batch_size, N, head_num, head_size])
  && (shapes dq_io.SRC_V == [batch_size, N, head_num, head_size])
  && (shapes dq_io.DST == [batch_size, M, head_num, head_size])
  && (shapes dq_io.BINARY_ADD == [batch_size, 1, 1, N])
  && (shapes dq_io.Q_SCALE == [batch_size, M])
  && (shapes dq_io.K_SCALE == [batch_size, N])
  && (shapes dq_io.V_SCALE == [batch_size, N])
  && (shapes dq_io.DST_SCALE == [batch_size, M])
  && (shapes dq_io.Q_ZP == [])
  && (shapes dq_io.K_ZP == [])
  && (shapes dq_io.V_ZP == [])
  && (shapes dq_io.DST_ZP == [])
  && (shapes dq_io.SRC_DST_SCALE == [])
  && (shapes dq_io.SRC_DST_ZP == [])
  && (dtypes dq_io.SRC_Q == data_type.s8)
  && (dtypes dq_io.SRC_K == data_type.s8)
  && (dtypes dq_io.SRC_V == data_type.s8)
  && (dtypes dq_io.DST == data_type.s8)
  && (dtypes dq_io.BINARY_ADD == data_type.fp32)
  && (dtypes dq_io.Q_SCALE == data_type.fp32)
  && (dtypes dq_io.K_SCALE == data_type.fp32)
  && (dtypes dq_io.V_SCALE == data_type.fp32)
  && (dtypes dq_io.DST_SCALE == data_type.fp32)

/-! ## Static dimensions, workspace sizing, dynamic-dimension resolution -/

/-- The five dimensions the `dynamic_quant_mha_k_t` constructor extracts from
the validated descriptor (each may be `0`, meaning "resolve at call time"). -/
structure static_dims where
  batch_size_ : Nat
  head_num_ : Nat
  M_ : Nat
  head_size_ : Nat
  N_ : Nat
  deriving DecidableEq, Repr

/-- Transliteration of `dynamic_quant_mha_k_t::get_workspace_size`:
`sizeof(float) = 4`, `sizeof(int8_t) = 1`, `max_threads` stands for
`omp_get_max_threads()`. It reads only the construction-time member
dimensions. -/
def get_workspace_size (sd : static_dims) (max_threads : Nat) : Nat :=
  4 * sd.batch_size_ * pad_to sd.N_ 64 +
  1 * sd.batch_size_ * sd.head_num_ * (pad_to sd.N_ 64 * pad_to sd.head_size_ 64) * 2 +
  4 * sd.batch_size_ * sd.head_num_ * pad_to sd.head_size_ 64 +
  4 * max_threads * 16 * sd.head_num_ * pad_to sd.N_ 64

/-- The specification's workspace formula, `mask_bytes`. -/
def spec_mask_bytes (batch seq_k : Nat) : Nat := 4 * batch * pad_to seq_k 64

/-- The specification's workspace formula, `kv_bytes` (int8, K and V buffers). -/
def spec_kv_bytes (batch heads seq_k head_size : Nat) : Nat :=
  2 * batch * heads * (pad_to seq_k 64 * pad_to head_size 64)

/-- The specification's workspace formula, `v_scale_bytes`. -/
def spec_v_scale_bytes (batch heads head_size : Nat) : Nat :=
  4 * batch * heads * pad_to head_size 64

/-- The specification's workspace formula, `softmax_scratch_bytes`. -/
def spec_softmax_scratch_bytes (max_threads heads seq_k : Nat) : Nat :=
  4 * max_threads * 16 * heads * pad_to seq_k 64

/-- Total workspace size as stated by the specification. -/
def spec_workspace_total (batch heads seq_k head_size max_threads : Nat) : Nat :=
  spec_mask_bytes batch seq_k + spec_kv_bytes batch heads seq_k head_size +
  spec_v_scale_bytes batch heads head_size +
  spec_softmax_scratch_bytes max_threads heads seq_k

/-- The `int32` values execute reads from the singleton dynamic-shape input
tensors (`rt_data[io::BATCH_SIZE][0]` etc.). -/
structure dyn_shape_reads where
  batch_size_val : Nat
  head_num_val : Nat
  head_size_val : Nat
  m_val : Nat
  n_val : Nat
  deriving DecidableEq, Repr

/-- Transliteration of the dimension resolution at the top of
`dynamic_quant_mha_k_t::execute` (lines 150-154): a construction-time
dimension that is positive is used as is; a zero one is replaced by the
value read from the corresponding dynamic-shape input tensor. -/
def resolve_dims (sd : static_dims) (rt : dyn_shape_reads) : static_dims where
  batch_size_ := if 0 < sd.batch_size_ then sd.batch_size_ else rt.batch_size_val
  head_num_ := if 0 < sd.head_num_ then sd.head_num_ else rt.head_num_val
  M_ := if 0 < sd.M_ then sd.M_ else rt.m_val
  head_size_ := if 0 < sd.head_size_ then sd.head_size_ else rt.head_size_val
  N_ := if 0 < sd.N_ then sd.N_ else rt.n_val

/-! ## Concrete descriptors used to evaluate the validator -/

/-- A fully static, well-formed descriptor (batch 1, seq_q 16, 1 head,
head_size 64, seq_k 16) that the validator accepts. -/
def desc_ok : operator_desc where
  attrs := fun s =>
    if s = approx_exp_key then some true_attr_val
    else if s = stable_softmax_key then some false_attr_val
    else none
  shapes := fun i =>
    match i with
    | dq_io.SRC_Q => [1, 16, 1, 64]
    | dq_io.SRC_K => [1, 16, 1, 64]
    | dq_io.SRC_V => [1, 16, 1, 64]
    | dq_io.DST => [1, 16, 1, 64]
    | dq_io.BINARY_ADD => [1, 1, 1, 16]
    | dq_io.Q_SCALE => [1, 16]
    | dq_io.K_SCALE => [1, 16]
    | dq_io.V_SCALE => [1, 16]
    | dq_io.DST_SCALE => [1, 16]
    | _ => []
  dtypes := fun i =>
    match i with
    | dq_io.SRC_Q => data_type.s8
    | dq_io.SRC_K => data_type.s8
    | dq_io.SRC_V => data_type.s8
    | dq_io.DST => data_type.s8
    | dq_io.BINARY_ADD => data_type.fp32
    | dq_io.Q_SCALE => data_type.fp32
    | dq_io.K_SCALE => data_type.fp32
    | dq_io.V_SCALE => data_type.fp32
    | dq_io.DST_SCALE => data_type.fp32
    | _ => data_type.undef

/-- Like `desc_ok` but with a dynamic seq_q (`M = 0` in every shape that
mentions it), the `io::M` dynamic slot declared as the singleton `[1]` and
the `io::HEAD_SIZE` dynamic slot absent. -/
def desc_m_dyn_with_m_slot : operator_desc where
  attrs := desc_ok.attrs
  shapes := fun i =>
    match i with
    | dq_io.SRC_Q => [1, 0, 1, 64]
    | dq_io.DST => [1, 0, 1, 64]
    | dq_io.Q_SCALE => [1, 0]
    | dq_io.DST_SCALE => [1, 0]
    | dq_io.M => [1]
    | _ => desc_ok.shapes i
  dtypes := desc_ok.dtypes

/-- Like `desc_ok` but with a dynamic seq_q (`M = 0`), the `io::M` dynamic
slot absent and the unrelated `io::HEAD_SIZE` dynamic slot declared `[1]`. -/
def desc_m_dyn_with_head_size_slot : operator_desc where
  attrs := desc_ok.attrs
  shapes := fun i =>
    match i with
    | dq_io.SRC_Q => [1, 0, 1, 64]
    | dq_io.DST => [1, 0, 1, 64]
    | dq_io.Q_SCALE => [1, 0]
    | dq_io.DST_SCALE => [1, 0]
    | dq_io.HEAD_SIZE => [1]
    | _ => desc_ok.shapes i
  dtypes := desc_ok.dtypes

/-- A descriptor that violates every rejection condition of claim C6 at
once: no attributes, non-empty zero-point and static output-quantization
slots, wrong dtypes everywhere. -/
def desc_all_bad : operator_desc where
  attrs := fun _ => none
  shapes := fun i =>
    match i with
    | dq_io.Q_ZP => [1]
    | dq_io.K_ZP => [1]
    | dq_io.V_ZP => [1]
    | dq_io.DST_ZP => [1]
    | dq_io.SRC_DST_SCALE => [1]
    | dq_io.SRC_DST_ZP => [1]
    | _ => desc_ok.shapes i
  dtypes := fun _ => data_type.u8

/-- C1: the claim states that a zero seq_q dimension passes its dimension
check iff the `io::M` dynamic slot has shape `[1]`, and a zero head_size
iff the `io::HEAD_SIZE` slot has shape `[1]`. The code contradicts this
(and its own `execute`, which reads `rt_data[io::M]` when `M_ == 0` and
`rt_data[io::HEAD_SIZE]` when `head_size_ == 0`): line 57 tests the
`HEAD_SIZE` slot when `M == 0` and line 58 tests the `M` slot when
`head_size == 0`. A descriptor with dynamic seq_q and a correct singleton
`io::M` slot is rejected, while one carrying the singleton in the unrelated
`io::HEAD_SIZE` slot is accepted. -/
theorem validator_swaps_m_and_head_size_slots :
    dynamic_quant_mha_kd_init true desc_m_dyn_with_m_slot = false ∧
    dynamic_quant_mha_kd_init true desc_m_dyn_with_head_size_slot = true := by
  constructor <;> decide

/-- C6: the validator rejects (returns `false`, without crashing) whenever
the `amx_int8` extension is unavailable, the `approx_exp` attribute is
missing or not `"True"`, the `stable_softmax` attribute is missing or not
`"False"`, any zero-point slot or static per-channel output-quantization
slot is non-empty, any of Query/Key/Value/Output is not signed 8-bit, or
the bias or any scale vector is not 32-bit float. The checks appear in the
source — and in the `&&` chain of `dynamic_quant_mha_kd_init`, which
short-circuits left to right — in exactly the claimed order, hardware
first. -/
theorem validator_rejects_unsupported (amx : Bool) (d : operator_desc) :
    (amx = false → dynamic_quant_mha_kd_init amx d = false) ∧
    (d.attrs approx_exp_key ≠ some true_attr_val →
      dynamic_quant_mha_kd_init amx d = false) ∧
    (d.attrs stable_softmax_key ≠ some false_attr_val →
      dynamic_quant_mha_kd_init amx d = false) ∧
    (d.shapes dq_io.Q_ZP ≠ [] → dynamic_quant_mha_kd_init amx d = false) ∧
    (d.shapes dq_io.K_ZP ≠ [] → dynamic_quant_mha_kd_init amx d = false) ∧
    (d.shapes dq_io.V_ZP ≠ [] → dynamic_quant_mha_kd_init amx d = false) ∧
    (d.shapes dq_io.DST_ZP ≠ [] → dynamic_quant_mha_kd_init amx d = false) ∧
    (d.shapes dq_io.SRC_DST_SCALE ≠ [] → dynamic_quant_mha_kd_init amx d = false) ∧
    (d.shapes dq_io.SRC_DST_ZP ≠ [] → dynamic_quant_mha_kd_init amx d = false) ∧
    (d.dtypes dq_io.SRC_Q ≠ data_type.s8 → dynamic_quant_mha_kd_init amx d = false) ∧
    (d.dtypes dq_io.SRC_K ≠ data_type.s8 → dynamic_quant_mha_kd_init amx d = false) ∧
    (d.dtypes dq_io.SRC_V ≠ data_type.s8 → dynamic_quant_mha_kd_init amx d = false) ∧
    (d.dtypes dq_io.DST ≠ data_type.s8 → dynamic_quant_mha_kd_init amx d = false) ∧
    (d.dtypes dq_io.BINARY_ADD ≠ data_type.fp32 → dynamic_quant_mha_kd_init amx d = false) ∧
    (d.dtypes dq_io.Q_SCALE ≠ data_type.fp32 → dynamic_quant_mha_kd_init amx d = false) ∧
    (d.dtypes dq_io.K_SCALE ≠ data_type.fp32 → dynamic_quant_mha_kd_init amx d = false) ∧
    (d.dtypes dq_io.V_SCALE ≠ data_type.fp32 → dynamic_quant_mha_kd_init amx d = false) ∧
    (d.dtypes dq_io.DST_SCALE ≠ data_type.fp32 → dynamic_quant_mha_kd_init amx d = false) := by
  refine ⟨?_, ?_, ?_, ?_, ?_, ?_, ?_, ?_, ?_, ?_, ?_, ?_, ?_, ?_, ?_, ?_, ?_, ?_⟩ <;>
    intro h <;>
    simp only [dynamic_quant_mha_kd_init, beq_eq_false_iff_ne, ne_eq,
      beq_iff_eq] <;>
    simp [h, beq_eq_false_iff_ne]

/-- Witness for `validator_rejects_unsupported`: every rejection condition,
instantiated at `amx = false` and `desc_all_bad`. -/
theorem validator_rejects_unsupported_witness :
    dynamic_quant_mha_kd_init false desc_all_bad = false :=
  (validator_rejects_unsupported false desc_all_bad).1 rfl

/-! ## C2 and C4: workspace sizing -/

/-- C2 (amended): `get_workspace_size` returns exactly
`mask_bytes + kv_bytes + v_scale_bytes + softmax_scratch_bytes` of the
specification's formulas, evaluated at the construction-time static
dimensions (a dynamic dimension contributes as `0`, since
`pad_to 0 k = 0`), and at the maximum thread count. -/
theorem workspace_size_eq_spec_formula (sd : static_dims) (max_threads : Nat) :
    get_workspace_size sd max_threads =
      spec_workspace_total sd.batch_size_ sd.head_num_ sd.N_ sd.head_size_ max_threads := by
  unfold get_workspace_size spec_workspace_total spec_mask_bytes spec_kv_bytes
    spec_v_scale_bytes spec_softmax_scratch_bytes
  ring

/-- A kernel whose seq_k is declared dynamic (`N_ = 0`). -/
def sd_dyn_n : static_dims := ⟨1, 1, 16, 64, 0⟩

/-- A call-time dynamic-shape read resolving seq_k to 64. -/
def rt_call_n64 : dyn_shape_reads := ⟨1, 1, 64, 16, 64⟩

/-- C2 counterexample: for a kernel constructed with `N_ = 0` (dynamic
seq_k) and executed with the dynamic slot resolving seq_k to 64,
`get_workspace_size` (a `const` member reading only construction-time
dimensions) does not equal the spec formula evaluated at the call-time
resolved dimensions: it returns 256 instead of 12800. -/
theorem workspace_size_ignores_resolved_dims :
    (resolve_dims sd_dyn_n rt_call_n64).N_ = 64 ∧
    get_workspace_size sd_dyn_n 1 ≠
      spec_workspace_total (resolve_dims sd_dyn_n rt_call_n64).batch_size_
        (resolve_dims sd_dyn_n rt_call_n64).head_num_
        (resolve_dims sd_dyn_n rt_call_n64).N_
        (resolve_dims sd_dyn_n rt_call_n64).head_size_ 1 := by
  constructor <;> decide

/-- C4: `get_workspace_size` is monotonically non-decreasing in each of the
five dimensions independently (it does not read `M_` at all, so it is
trivially non-decreasing in seq_q). -/
theorem workspace_size_monotone (sd sd' : static_dims) (max_threads : Nat)
    (hb : sd.batch_size_ ≤ sd'.batch_size_) (hh : sd.head_num_ ≤ sd'.head_num_)
    (_hm : sd.M_ ≤ sd'.M_) (hhs : sd.head_size_ ≤ sd'.head_size_)
    (hn : sd.N_ ≤ sd'.N_) :
    get_workspace_size sd max_threads ≤ get_workspace_size sd' max_threads := by
  unfold get_workspace_size
  have p1 := pad_to_mono 64 hn
  have p2 := pad_to_mono 64 hhs
  gcongr

/-- Witness for `workspace_size_monotone` at concrete dimensions. -/
theorem workspace_size_monotone_witness :
    get_workspace_size ⟨1, 1, 1, 1, 1⟩ 1 ≤ get_workspace_size ⟨2, 2, 2, 2, 2⟩ 1 :=
  workspace_size_monotone ⟨1, 1, 1, 1, 1⟩ ⟨2, 2, 2, 2, 2⟩ 1
    (by decide) (by decide) (by decide) (by decide) (by decide)

/-- C7: for each of the five dimensions, `execute` uses the construction-time
value when it was declared positive, and the `int32` value read from the
corresponding dynamic-shape input slot (`BATCH_SIZE`, `HEAD_NUM`, `M`,
`HEAD_SIZE`, `N` for batch, heads, seq_q, head_size, seq_k respectively)
when it was declared `0`. -/
theorem execute_resolves_dynamic_dims (sd : static_dims) (rt : dyn_shape_reads) :
    (sd.batch_size_ = 0 → (resolve_dims sd rt).batch_size_ = rt.batch_size_val) ∧
    (0 < sd.batch_size_ → (resolve_dims sd rt).batch_size_ = sd.batch_size_) ∧
    (sd.head_num_ = 0 → (resolve_dims sd rt).head_num_ = rt.head_num_val) ∧
    (0 < sd.head_num_ → (resolve_dims sd rt).head_num_ = sd.head_num_) ∧
    (sd.M_ = 0 → (resolve_dims sd rt).M_ = rt.m_val) ∧
    (0 < sd.M_ → (resolve_dims sd rt).M_ = sd.M_) ∧
    (sd.head_size_ = 0 → (resolve_dims sd rt).head_size_ = rt.head_size_val) ∧
    (0 < sd.head_size_ → (resolve_dims sd rt).head_size_ = sd.head_size_) ∧
    (sd.N_ = 0 → (resolve_dims sd rt).N_ = rt.n_val) ∧
    (0 < sd.N_ → (resolve_dims sd rt).N_ = sd.N_) := by
  refine ⟨?_, ?_, ?_, ?_, ?_, ?_, ?_, ?_, ?_, ?_⟩ <;>
    intro h <;> simp [resolve_dims, h]

/-- Witness for `execute_resolves_dynamic_dims`: a kernel with dynamic
batch, seq_q and seq_k and static heads and head_size, called with concrete
dynamic-shape values. -/
theorem execute_resolves_dynamic_dims_witness :
    (resolve_dims ⟨0, 3, 0, 5, 0⟩ ⟨7, 8, 9, 10, 11⟩).batch_size_ = 7 ∧
    (resolve_dims ⟨0, 3, 0, 5, 0⟩ ⟨7, 8, 9, 10, 11⟩).head_num_ = 3 ∧
    (resolve_dims ⟨0, 3, 0, 5, 0⟩ ⟨7, 8, 9, 10, 11⟩).M_ = 10 ∧
    (resolve_dims ⟨0, 3, 0, 5, 0⟩ ⟨7, 8, 9, 10, 11⟩).head_size_ = 5 ∧
    (resolve_dims ⟨0, 3, 0, 5, 0⟩ ⟨7, 8, 9, 10, 11⟩).N_ = 11 :=
  ⟨(execute_resolves_dynamic_dims _ _).1 rfl,
   (execute_resolves_dynamic_dims _ _).2.2.2.1 (by decide),
   (execute_resolves_dynamic_dims _ _).2.2.2.2.1 rfl,
   (execute_resolves_dynamic_dims _ _).2.2.2.2.2.2.2.1 (by decide),
   (execute_resolves_dynamic_dims _ _).2.2.2.2.2.2.2.2.1 rfl⟩

/-! ## C3: workspace carving in `execute` (lines 156-176)

`execute` computes element counts for five regions and carves them from the
caller-supplied workspace with typed pointer arithmetic. The byte offsets
below restate that pointer arithmetic: `tmp_mask` is a `float*` at the
workspace base, `tmp_k` starts after `tmp_mask_size` floats, and so on;
`tmp_threads` is a `uint8_t*`, so a thread's scratch stride
`tmp_thread_size` is in bytes. Each offset definition is the previous
offset plus the previous region's byte size, so the regions are contiguous
and ordered exactly as carved. -/

/-- Elements of the padded-mask region: `batch_size * N_pad16` floats. -/
def tmp_mask_size (P : static_dims) : Nat := P.batch_size_ * pad_to P.N_ 16

/-- Bytes of one head's transposed-K buffer: `head_size_pad64 * N_pad16`. -/
def head_tmp_k_size (P : static_dims) : Nat :=
  pad_to P.head_size_ 64 * pad_to P.N_ 16

/-- Bytes of one head's transposed/re-quantized V buffer:
`N_pad64 * head_size_pad16`. -/
def head_tmp_v_size (P : static_dims) : Nat :=
  pad_to P.N_ 64 * pad_to P.head_size_ 16

/-- Elements of one head's V-scale vector: `head_size_pad16` floats. -/
def head_tmp_v_scale_size (P : static_dims) : Nat := pad_to P.head_size_ 16

/-- Bytes of one thread's softmax-result scratch:
`head_num * 16 * N_pad64` (u8 probabilities). -/
def tmp_thread_size (P : static_dims) : Nat :=
  P.head_num_ * 16 * pad_to P.N_ 64

/-- Byte offset of `tmp_mask` in the workspace. -/
def tmp_mask_off : Nat := 0

/-- Byte offset of `tmp_k`: after `tmp_mask_size` floats. -/
def tmp_k_off (P : static_dims) : Nat := tmp_mask_off + 4 * tmp_mask_size P

/-- Byte offset of `tmp_v`: after `batch * heads` K buffers. -/
def tmp_v_off (P : static_dims) : Nat :=
  tmp_k_off P + P.batch_size_ * P.head_num_ * head_tmp_k_size P

/-- Byte offset of `tmp_v_scale`: after `batch * heads` V buffers. -/
def tmp_v_scale_off (P : static_dims) : Nat :=
  tmp_v_off P + P.batch_size_ * P.head_num_ * head_tmp_v_size P

/-- Byte offset of `tmp_threads`: after `batch * heads` V-scale vectors
(floats). -/
def tmp_threads_off (P : static_dims) : Nat :=
  tmp_v_scale_off P + 4 * (P.batch_size_ * P.head_num_ * head_tmp_v_scale_size P)

/-- One byte past the last per-thread scratch region (the commented-out
`tmp_end` of the source). -/
def tmp_end_off (P : static_dims) (max_threads : Nat) : Nat :=
  tmp_threads_off P + max_threads * tmp_thread_size P

/-- The carved regions, at the dimensions the kernel was constructed with,
always fit in `get_workspace_size` (helper for the amended C3). -/
theorem tmp_end_off_le_workspace_size (sd : static_dims) (T : Nat) :
    tmp_end_off sd T ≤ get_workspace_size sd T := by
  unfold tmp_end_off tmp_threads_off tmp_v_scale_off tmp_v_off tmp_k_off
    tmp_mask_off tmp_mask_size head_tmp_k_size head_tmp_v_size
    head_tmp_v_scale_size tmp_thread_size get_workspace_size
  have c1 : pad_to sd.head_size_ 64 * pad_to sd.N_ 16 ≤
      pad_to sd.N_ 64 * pad_to sd.head_size_ 64 := by
    rw [Nat.mul_comm]
    exact mul_le_mul_right' (pad_to_16_le_64 sd.N_) _
  have c2 : pad_to sd.N_ 64 * pad_to sd.head_size_ 16 ≤
      pad_to sd.N_ 64 * pad_to sd.head_size_ 64 :=
    mul_le_mul_left' (pad_to_16_le_64 sd.head_size_) _
  have d1 : sd.batch_size_ * pad_to sd.N_ 16 ≤ sd.batch_size_ * pad_to sd.N_ 64 :=
    mul_le_mul_left' (pad_to_16_le_64 sd.N_) _
  have d2 : sd.batch_size_ * sd.head_num_ * (pad_to sd.head_size_ 64 * pad_to sd.N_ 16) ≤
      sd.batch_size_ * sd.head_num_ * (pad_to sd.N_ 64 * pad_to sd.head_size_ 64) :=
    mul_le_mul_left' c1 _
  have d3 : sd.batch_size_ * sd.head_num_ * (pad_to sd.N_ 64 * pad_to sd.head_size_ 16) ≤
      sd.batch_size_ * sd.head_num_ * (pad_to sd.N_ 64 * pad_to sd.head_size_ 64) :=
    mul_le_mul_left' c2 _
  have d4 : sd.batch_size_ * sd.head_num_ * pad_to sd.head_size_ 16 ≤
      sd.batch_size_ * sd.head_num_ * pad_to sd.head_size_ 64 :=
    mul_le_mul_left' (pad_to_16_le_64 sd.head_size_) _
  have d5 : 16 * (T * (sd.head_num_ * pad_to sd.N_ 64)) ≤
      64 * (T * (sd.head_num_ * pad_to sd.N_ 64)) :=
    Nat.mul_le_mul (by omega) (Nat.le_refl _)
  nlinarith [d1, d2, d3, d4, d5]

/-- C3 counterexample: for a kernel constructed with a dynamic seq_k
(`N_ = 0`) and executed with seq_k resolved to 64, the five carved regions
(computed from the resolved dimensions) do not fit in the buffer size
returned by `get_workspace_size` (computed from the static dimensions):
they need 9728 bytes while `get_workspace_size` returns 256. -/
theorem workspace_carve_exceeds_size_with_dynamic_dims :
    get_workspace_size sd_dyn_n 1 <
      tmp_end_off (resolve_dims sd_dyn_n rt_call_n64) 1 := by decide

/-- C3 (amended): for kernels whose five construction-time dimensions are
all positive (fully static, so `execute` resolves each dimension to its
construction-time value), the five workspace regions are contiguous in the
order padded mask, K buffers, V buffers, V-scale, per-thread softmax
scratch — each offset is the previous offset plus the previous region's
byte size, with the per-thread scratch counted in u8 bytes — and one byte
past the last region never exceeds `get_workspace_size`. -/
theorem workspace_carve_within_size_static (sd : static_dims)
    (rt : dyn_shape_reads) (T : Nat)
    (hb : 0 < sd.batch_size_) (hh : 0 < sd.head_num_) (hm : 0 < sd.M_)
    (hhs : 0 < sd.head_size_) (hn : 0 < sd.N_) :
    resolve_dims sd rt = sd ∧
    tmp_k_off sd = tmp_mask_off + 4 * tmp_mask_size sd ∧
    tmp_v_off sd = tmp_k_off sd + sd.batch_size_ * sd.head_num_ * head_tmp_k_size sd ∧
    tmp_v_scale_off sd = tmp_v_off sd + sd.batch_size_ * sd.head_num_ * head_tmp_v_size sd ∧
    tmp_threads_off sd =
      tmp_v_scale_off sd + 4 * (sd.batch_size_ * sd.head_num_ * head_tmp_v_scale_size sd) ∧
    tmp_end_off sd T = tmp_threads_off sd + T * tmp_thread_size sd ∧
    tmp_end_off (resolve_dims sd rt) T ≤ get_workspace_size sd T := by
  have hres : resolve_dims sd rt = sd := by
    simp [resolve_dims, hb, hh, hm, hhs, hn]
  refine ⟨hres, rfl, rfl, rfl, rfl, rfl, ?_⟩
  rw [hres]
  exact tmp_end_off_le_workspace_size sd T

/-- Witness for `workspace_carve_within_size_static` at batch 1, 1 head,
seq_q 16, head_size 64, seq_k 20, two threads. -/
theorem workspace_carve_within_size_static_witness :
    tmp_end_off (resolve_dims ⟨1, 1, 16, 64, 20⟩ ⟨9, 9, 9, 9, 9⟩) 2 ≤
      get_workspace_size ⟨1, 1, 16, 64, 20⟩ 2 :=
  (workspace_carve_within_size_static ⟨1, 1, 16, 64, 20⟩ ⟨9, 9, 9, 9, 9⟩ 2
    (by decide) (by decide) (by decide) (by decide) (by decide)).2.2.2.2.2.2

/-! ## A small model of memory writes

`execute` fills the workspace regions and the output buffers through raw
pointers. Each region (and each caller buffer) is modelled as a total map
from element indices to values, and each loop nest as the list of writes it
performs, applied in order. -/

/-- One store: an element index inside a region and the stored value. -/
structure MemWrite (α : Type) where
  addr : Nat
  val : α

/-- Apply a list of writes to a region, in order (later writes win). -/
def applyWrites {α : Type} (l : List (MemWrite α)) (m : Nat → α) : Nat → α :=
  l.foldl (fun acc w => Function.update acc w.addr w.val) m

theorem applyWrites_nil {α : Type} (m : Nat → α) : applyWrites [] m = m := rfl

theorem applyWrites_cons {α : Type} (w : MemWrite α) (l : List (MemWrite α))
    (m : Nat → α) :
    applyWrites (w :: l) m = applyWrites l (Function.update m w.addr w.val) := rfl

theorem applyWrites_append {α : Type} (l₁ l₂ : List (MemWrite α)) (m : Nat → α) :
    applyWrites (l₁ ++ l₂) m = applyWrites l₂ (applyWrites l₁ m) := by
  unfold applyWrites
  exact List.foldl_append _ _ _ _

/-- Writes preserve pointwise agreement at an index. -/
theorem applyWrites_congr_at {α : Type} (l : List (MemWrite α)) {m m' : Nat → α}
    {a : Nat} (h : m a = m' a) : applyWrites l m a = applyWrites l m' a := by
  induction l generalizing m m' with
  | nil => exact h
  | cons w t ih =>
    rw [applyWrites_cons, applyWrites_cons]
    apply ih
    by_cases hw : a = w.addr
    · subst hw
      rw [Function.update_same, Function.update_same]
    · rw [Function.update_noteq hw, Function.update_noteq hw]
      exact h

/-- An index no write targets keeps its initial value. -/
theorem applyWrites_not_mem {α : Type} (l : List (MemWrite α)) (m : Nat → α)
    (a : Nat) (h : a ∉ l.map MemWrite.addr) : applyWrites l m a = m a := by
  induction l generalizing m with
  | nil => rfl
  | cons w t ih =>
    rw [applyWrites_cons]
    have hw : a ≠ w.addr := by
      intro he
      exact h (by simp [he])
    rw [ih _ (by intro ht; exact h (by simp [ht])), Function.update_noteq hw]

/-- At a written index the result does not depend on the initial region
contents. -/
theorem applyWrites_mem_congr {α : Type} (l : List (MemWrite α)) (m m' : Nat → α)
    (a : Nat) (h : a ∈ l.map MemWrite.addr) :
    applyWrites l m a = applyWrites l m' a := by
  induction l generalizing m m' with
  | nil => simp at h
  | cons w t ih =>
    rw [applyWrites_cons, applyWrites_cons]
    by_cases ht : a ∈ t.map MemWrite.addr
    · exact ih _ _ ht
    · have ha : a = w.addr := by
        simp only [List.map_cons, List.mem_cons] at h
        tauto
      apply applyWrites_congr_at
      subst ha
      rw [Function.update_same, Function.update_same]

/-- If every write hitting index `a` stores the same value `v`, and some
write hits `a`, the final value at `a` is `v`. -/
theorem applyWrites_eq_of_forall {α : Type} (l : List (MemWrite α)) :
    ∀ (m : Nat → α) (a : Nat) (v : α), a ∈ l.map MemWrite.addr →
      (∀ w ∈ l, w.addr = a → w.val = v) → applyWrites l m a = v := by
  induction l with
  | nil =>
    intro m a v hmem _
    simp at hmem
  | cons w t ih =>
    intro m a v hmem hval
    rw [applyWrites_cons]
    by_cases ht : a ∈ t.map MemWrite.addr
    · exact ih _ a v ht (fun w' hw' => hval w' (List.mem_cons_of_mem _ hw'))
    · have ha : a = w.addr := by
        simp only [List.map_cons, List.mem_cons] at hmem
        tauto
      rw [applyWrites_not_mem _ _ _ ht]
      subst ha
      rw [Function.update_same]
      exact hval w (List.mem_cons_self _ _) rfl

/-- Congruence for `List.map` over a shared list. -/
theorem list_map_congr {α β : Type} {l : List α} {f g : α → β}
    (h : ∀ a ∈ l, f a = g a) : l.map f = l.map g := by
  induction l with
  | nil => rfl
  | cons x t ih =>
    rw [List.map_cons, List.map_cons, h x (List.mem_cons_self x t),
      ih (fun a ha => h a (List.mem_cons_of_mem _ ha))]

/-- Congruence for `List.flatMap` over a shared list. -/
theorem list_flatMap_congr {α β : Type} {l : List α} {f g : α → List β}
    (h : ∀ a ∈ l, f a = g a) : l.flatMap f = l.flatMap g := by
  induction l with
  | nil => rfl
  | cons x t ih =>
    rw [List.flatMap_cons, List.flatMap_cons, h x (List.mem_cons_self x t),
      ih (fun a ha => h a (List.mem_cons_of_mem _ ha))]

/-- Unique decomposition of `i * W + x` with `x < W`. -/
theorem block_decomp_inj {W i x i' x' : Nat} (hx : x < W) (hx' : x' < W)
    (h : i * W + x = i' * W + x') : i = i' ∧ x = x' := by
  have hW : 0 < W := Nat.lt_of_le_of_lt (Nat.zero_le x) hx
  have h1 : (i * W + x) % W = x := by
    rw [Nat.add_comm, Nat.add_mul_mod_self_right, Nat.mod_eq_of_lt hx]
  have h2 : (i' * W + x') % W = x' := by
    rw [Nat.add_comm, Nat.add_mul_mod_self_right, Nat.mod_eq_of_lt hx']
  have hxx : x = x' := by rw [← h1, ← h2, h]
  refine ⟨?_, hxx⟩
  have h3 : i * W = i' * W := by omega
  exact Nat.eq_of_mul_eq_mul_right hW h3

/-- A block write stays inside the enclosing region:
`i * W + x < n * W` when `i < n` and `x < W`. -/
theorem block_addr_lt {i n W x : Nat} (hi : i < n) (hx : x < W) :
    i * W + x < n * W := by
  calc i * W + x < i * W + W := Nat.add_lt_add_left hx _
    _ = (i + 1) * W := by ring
    _ ≤ n * W := Nat.mul_le_mul_right W hi

/-- Decomposition of a region index into batch index and offset. -/
theorem addr_decomp2 (B W a : Nat) (ha : a < B * W) :
    ∃ i, i < B ∧ ∃ o, o < W ∧ i * W + o = a := by
  have hW : 0 < W := by
    rcases Nat.eq_zero_or_pos W with h | h
    · subst h; omega
    · exact h
  refine ⟨a / W, ?_, a % W, Nat.mod_lt a hW, ?_⟩
  · rw [Nat.div_lt_iff_lt_mul hW]
    calc a < B * W := ha
      _ = B * W := rfl
  · have := Nat.div_add_mod a W
    calc a / W * W + a % W = W * (a / W) + a % W := by ring
      _ = a := this

/-- Decomposition of a region index into (outer block, inner block, offset):
the index pattern of the transposed K and V buffers, whose per-`(batch,head)`
region of `(16 * u) * nb` bytes is written in `nb` blocks of `16 * u`
bytes. -/
theorem addr_decomp3 (G u nb a : Nat) (ha : a < G * ((16 * u) * nb)) :
    ∃ g, g < G ∧ ∃ t, t < nb ∧ ∃ o, o < 16 * u ∧
      g * ((16 * u) * nb) + (t * (16 * u) + o) = a := by
  obtain ⟨g, hg, r, hr, hgr⟩ := addr_decomp2 G ((16 * u) * nb) a ha
  have hu : 0 < 16 * u := by
    rcases Nat.eq_zero_or_pos (16 * u) with h | h
    · rw [h] at hr; omega
    · exact h
  refine ⟨g, hg, r / (16 * u), ?_, r % (16 * u), Nat.mod_lt r hu, ?_⟩
  · rw [Nat.div_lt_iff_lt_mul hu]
    calc r < 16 * u * nb := hr
      _ = nb * (16 * u) := by ring
  · have h2 := Nat.div_add_mod r (16 * u)
    have h3 : r / (16 * u) * (16 * u) + r % (16 * u) = r := by
      calc r / (16 * u) * (16 * u) + r % (16 * u)
          = 16 * u * (r / (16 * u)) + r % (16 * u) := by ring
        _ = r := h2
    rw [h3, hgr]

/-! ## Micro-kernel contracts

Runtime-parameter structures mirroring the `rt_data_t` structs `execute`
fills in (source pointers become index-to-value views, destination pointers
are handled by the write lists). The micro-kernels themselves are opaque:
a `micro_kernels` value supplies, for each kernel, the values it stores as
a function of its runtime parameters — and of nothing else. -/

/-- `jit_trans_AB16a4b_16x::rt_data_t` (K transpose), minus the dst
pointer. -/
structure trans_AB16a4b_rt where
  src : Nat → Int
  ld_src : Nat
  M : Nat
  N : Nat

/-- `jit_trans_BA16b4a_trq10n_x16::rt_data_t` (V transpose + re-quantize),
minus the dst pointers. -/
structure trans_BA16b4a_rt where
  src : Nat → Int
  src_scale : Nat → ℚ
  ld_src : Nat
  M : Nat
  N : Nat

/-- `jit_mmsoftmax_batch_amx_s8_ab_BA16b4a_u8_16x::rt_data_t`
(QK matmul + softmax + u8 quantize), minus the dst pointer. -/
structure mmsoftmax_rt where
  src0 : Nat → Int
  src1 : Nat → Int
  scale_src0 : Nat → ℚ
  scale_src1 : Nat → ℚ
  src_bias : Nat → ℚ
  K : Nat
  N : Nat
  ld_src0 : Nat
  ld_src1 : Nat
  ld_dst : Nat
  batch_size : Nat
  batchstep_src0 : Nat
  batchstep_src0scale : Nat
  batchstep_src1 : Nat
  batchstep_src1scale : Nat
  batchstep_dst : Nat

/-- `jit_mm_batch_amx_u8s8_ab_AB16a4b_dynamic_quant_16x::rt_data_t`
(AV matmul + per-row dynamic quantize), minus the dst pointers. -/
structure mmav_rt where
  src0 : Nat → Int
  src1 : Nat → Int
  scale_src1 : Nat → ℚ
  K : Nat
  N : Nat
  ld_src0 : Nat
  ld_src1 : Nat
  ld_dst : Nat
  batch_size : Nat
  batchstep_src0 : Nat
  batchstep_src1 : Nat
  batchstep_src1scale : Nat
  batchstep_dst : Nat

/-- The four JIT micro-kernels as opaque contracts: each maps its runtime
parameters to the values it stores into its destination. `seq_cpy_k` writes
one `16 x head_size_pad64` block per call; `seq_cpy_v` writes the live
`16 * pad_to(N,4)` bytes of one V block plus `min(16, head_size - j)`
block scales (`seq_cpy_v_scale`); `qxk` writes the whole
`head_num * 16 * N_pad64` u8 softmax scratch of one call; `axv_dst` and
`axv_scale` give the int8 output block (indexed head, row, column) and the
16 per-row output scales of one call. -/
structure micro_kernels where
  seq_cpy_k : trans_AB16a4b_rt → Nat → Int
  seq_cpy_v : trans_BA16b4a_rt → Nat → Int
  seq_cpy_v_scale : trans_BA16b4a_rt → Nat → ℚ
  qxk : mmsoftmax_rt → Nat → Int
  axv_dst : mmav_rt → Nat → Nat → Nat → Int
  axv_scale : mmav_rt → Nat → ℚ

/-! ## The buffers of one execute call -/

/-- All buffers an `execute` call touches: the caller's tensors
(element-indexed: int8 tensors by byte, fp32 tensors by float) and the five
carved workspace regions, each with region-local element indices (their
placement inside the raw workspace byte buffer is the `tmp_*_off` layout
proved in C3). -/
structure exec_buffers where
  src_q : Nat → Int
  src_k : Nat → Int
  mask : Nat → ℚ
  src_v : Nat → Int
  dst : Nat → Int
  q_scale : Nat → ℚ
  k_scale : Nat → ℚ
  v_scale : Nat → ℚ
  dst_scale : Nat → ℚ
  ws_mask : Nat → ℚ
  ws_k : Nat → Int
  ws_v : Nat → Int
  ws_v_scale : Nat → ℚ
  ws_threads : Nat → Int

/-! ## Phase 1: K / V layout transform (lines 178-216) -/

/-- `tr_k_data` of the K-transpose call for `(ibs, ihn)` at row block
`j`: `curr_k = src_k + ibs*N*head_size*head_num + ihn*head_size`, source
block at `curr_k + j*(head_size*head_num)`. -/
def tr_k_args (P : static_dims) (src_k : Nat → Int) (ibs ihn j : Nat) :
    trans_AB16a4b_rt where
  src := fun a =>
    src_k (ibs * (P.N_ * P.head_size_ * P.head_num_) + ihn * P.head_size_ +
      j * (P.head_size_ * P.head_num_) + a)
  ld_src := P.head_size_ * P.head_num_
  M := min 16 (P.N_ - j)
  N := P.head_size_

/-- The writes of the K-transpose loop: for each `(ibs, ihn)` and each row
block `j = 16*t < N`, one `16 x head_size_pad64` block at
`(ibs*head_num + ihn)*head_tmp_k_size + j*head_size_pad64` in `tmp_k`. -/
def ws_k_writes (P : static_dims) (mk : micro_kernels) (src_k : Nat → Int) :
    List (MemWrite Int) :=
  (List.range P.batch_size_).flatMap fun ibs =>
  (List.range P.head_num_).flatMap fun ihn =>
  (List.range (num_blk16 P.N_)).flatMap fun t =>
  (List.range (16 * pad_to P.head_size_ 64)).map fun o =>
    ⟨(ibs * P.head_num_ + ihn) * head_tmp_k_size P +
       (t * (16 * pad_to P.head_size_ 64) + o),
     mk.seq_cpy_k (tr_k_args P src_k ibs ihn (16 * t)) o⟩

/-- Live bytes of one transposed V block: `16 * pad_to(N, 4)`
(`size_trq10n_v_block` in the source). -/
def size_trq10n_v_block (N : Nat) : Nat := 16 * pad_to N 4

/-- Zero-filled padding gap of one transposed V block:
`N_pad64 * 16 - size_trq10n_v_block` (`size_pad0_v_block`). -/
def size_pad0_v_block (N : Nat) : Nat :=
  pad_to N 64 * 16 - size_trq10n_v_block N

/-- `tr_v_data` of the V-transpose call for `(ibs, ihn)` at column block
`j`: `curr_v = src_v + ibs*N*head_size*head_num + ihn*head_size`, source
block at `curr_v + j`, scales at `v_scale + ibs*N`. -/
def tr_v_args (P : static_dims) (src_v : Nat → Int) (v_scale : Nat → ℚ)
    (ibs ihn j : Nat) : trans_BA16b4a_rt where
  src := fun a =>
    src_v (ibs * (P.N_ * P.head_size_ * P.head_num_) + ihn * P.head_size_ + j + a)
  src_scale := fun a => v_scale (ibs * P.N_ + a)
  ld_src := P.head_size_ * P.head_num_
  M := P.N_
  N := min 16 (P.head_size_ - j)

/-- The writes of the V-transform loop: for each `(ibs, ihn)` and each
column block `j = 16*t < head_size`, the micro-kernel's live
`size_trq10n_v_block` bytes at `curr_tmp_v + j*N_pad64`, then — if the
padding gap is non-empty — `size_pad0_v_block` explicit zero bytes
(`std::fill_n`, line 213). -/
def ws_v_writes (P : static_dims) (mk : micro_kernels) (src_v : Nat → Int)
    (v_scale : Nat → ℚ) : List (MemWrite Int) :=
  (List.range P.batch_size_).flatMap fun ibs =>
  (List.range P.head_num_).flatMap fun ihn =>
  (List.range (num_blk16 P.head_size_)).flatMap fun t =>
  ((List.range (size_trq10n_v_block P.N_)).map fun o =>
    ⟨(ibs * P.head_num_ + ihn) * head_tmp_v_size P +
       (t * (16 * pad_to P.N_ 64) + o),
     mk.seq_cpy_v (tr_v_args P src_v v_scale ibs ihn (16 * t)) o⟩) ++
  (if size_pad0_v_block P.N_ ≠ 0 then
    (List.range (size_pad0_v_block P.N_)).map fun o =>
      ⟨(ibs * P.head_num_ + ihn) * head_tmp_v_size P +
         (t * (16 * pad_to P.N_ 64) + (size_trq10n_v_block P.N_ + o)), 0⟩
   else [])

/-- The writes of the per-block V scales: for each `(ibs, ihn)` and column
block `j = 16*t`, `min(16, head_size - j)` floats at
`curr_tmp_v_scale + j`. -/
def ws_v_scale_writes (P : static_dims) (mk : micro_kernels)
    (src_v : Nat → Int) (v_scale : Nat → ℚ) : List (MemWrite ℚ) :=
  (List.range P.batch_size_).flatMap fun ibs =>
  (List.range P.head_num_).flatMap fun ihn =>
  (List.range (num_blk16 P.head_size_)).flatMap fun t =>
  (List.range (min 16 (P.head_size_ - 16 * t))).map fun o =>
    ⟨(ibs * P.head_num_ + ihn) * head_tmp_v_scale_size P + (16 * t + o),
     mk.seq_cpy_v_scale (tr_v_args P src_v v_scale ibs ihn (16 * t)) o⟩

/-- The writes of the mask-padding loop (lines 218-227): nothing when
`N` is already a multiple of 16 (the scratch pointer is aliased to the
caller's mask instead); otherwise, per batch, the `N` caller mask values
followed by `N_pad16 - N` sentinel values `-1000.0`. -/
def ws_mask_writes (P : static_dims) (mask : Nat → ℚ) : List (MemWrite ℚ) :=
  if P.N_ ≠ pad_to P.N_ 16 then
    (List.range P.batch_size_).flatMap fun ibs =>
      ((List.range P.N_).map fun j =>
        ⟨ibs * pad_to P.N_ 16 + j, mask (ibs * P.N_ + j)⟩) ++
      ((List.range (pad_to P.N_ 16 - P.N_)).map fun j =>
        ⟨ibs * pad_to P.N_ 16 + (P.N_ + j), (-1000 : ℚ)⟩)
  else []

/-- The mask pointer phase 2 reads through (`tmp_mask` after line 226):
the padded workspace copy when `N != N_pad16`, the caller's mask buffer
otherwise (aliasing, no copy). -/
def qk_bias_base (P : static_dims) (mask ws_mask : Nat → ℚ) : Nat → ℚ :=
  if P.N_ ≠ pad_to P.N_ 16 then ws_mask else mask

/-! ## Phase 2: fused attention (lines 230-292) -/

/-- View of all `head_num` transposed-K buffers of batch `ibs`
(`curr_tmp_k = tmp_k + ibs*head_num*head_tmp_k_size`), clamped to the
extent the QK micro-kernel may read. -/
def k_view (P : static_dims) (ws_k : Nat → Int) (ibs : Nat) : Nat → Int :=
  fun a =>
    if a < P.head_num_ * head_tmp_k_size P then
      ws_k (ibs * (P.head_num_ * head_tmp_k_size P) + a)
    else 0

/-- View of all `head_num` transposed-V buffers of batch `ibs`, clamped to
the extent the AV micro-kernel may read. -/
def v_view (P : static_dims) (ws_v : Nat → Int) (ibs : Nat) : Nat → Int :=
  fun a =>
    if a < P.head_num_ * head_tmp_v_size P then
      ws_v (ibs * (P.head_num_ * head_tmp_v_size P) + a)
    else 0

/-- View of all `head_num` V-scale vectors of batch `ibs`, clamped to the
extent the AV micro-kernel may read: per head it consumes `head_size`
scales (`N = head_size`), advancing by `head_tmp_v_scale_size` floats per
head (`batchstep_src1scale`). -/
def v_scale_view (P : static_dims) (ws_v_scale : Nat → ℚ) (ibs : Nat) :
    Nat → ℚ :=
  fun a =>
    if a < P.head_num_ * head_tmp_v_scale_size P ∧
        a % head_tmp_v_scale_size P < P.head_size_ then
      ws_v_scale (ibs * (P.head_num_ * head_tmp_v_scale_size P) + a)
    else 0

/-- View of the (possibly padded) mask row of batch `ibs`
(`curr_mask = tmp_mask + ibs*N_pad16`), clamped to the `N_pad16` floats the
QK micro-kernel may read. -/
def bias_view (P : static_dims) (bias : Nat → ℚ) (ibs : Nat) : Nat → ℚ :=
  fun a => if a < pad_to P.N_ 16 then bias (ibs * pad_to P.N_ 16 + a) else 0

/-- `mm_qk_data` of the fused QK+softmax call for batch `ibs`, query row
block `i` (lines 245-263). -/
def mm_qk_args (P : static_dims) (src_q : Nat → Int) (q_scale k_scale : Nat → ℚ)
    (kv : Nat → Int) (bias : Nat → ℚ) (ibs i : Nat) : mmsoftmax_rt where
  src0 := fun a => src_q ((ibs * P.M_ + i) * (P.head_size_ * P.head_num_) + a)
  src1 := kv
  scale_src0 := fun a => q_scale (ibs * P.M_ + i + a)
  scale_src1 := fun a => k_scale (ibs * P.N_ + a)
  src_bias := bias
  K := P.head_size_
  N := P.N_
  ld_src0 := P.head_size_ * P.head_num_
  ld_src1 := pad_to P.head_size_ 64 * 16
  ld_dst := pad_to P.N_ 64
  batch_size := P.head_num_
  batchstep_src0 := P.head_size_
  batchstep_src0scale := 0
  batchstep_src1 := head_tmp_k_size P
  batchstep_src1scale := 0
  batchstep_dst := 16 * pad_to P.N_ 64

/-- `mm_av_data` of the fused AV+quantize call (lines 272-288): its `src0`
is the u8 softmax scratch the QK call of the same iteration just wrote,
passed through the per-thread region. -/
def mm_av_args (P : static_dims) (qk_out : Nat → Int) (vv : Nat → Int)
    (vs : Nat → ℚ) : mmav_rt where
  src0 := qk_out
  src1 := vv
  scale_src1 := vs
  K := P.N_
  N := P.head_size_
  ld_src0 := pad_to P.N_ 64
  ld_src1 := pad_to P.N_ 64 * 16
  ld_dst := P.head_size_ * P.head_num_
  batch_size := P.head_num_
  batchstep_src0 := 16 * pad_to P.N_ 64
  batchstep_src1 := head_tmp_v_size P
  batchstep_src1scale := 4 * head_tmp_v_scale_size P
  batchstep_dst := P.head_size_

/-- The softmax scratch contents the QK call of iteration `(ibs, i)`
produces (the AV call of the same iteration reads them back from the
per-thread region). -/
def qk_out (P : static_dims) (mk : micro_kernels) (src_q : Nat → Int)
    (q_scale k_scale : Nat → ℚ) (kw : Nat → Int) (bias : Nat → ℚ)
    (ibs i : Nat) : Nat → Int :=
  fun a =>
    mk.qxk (mm_qk_args P src_q q_scale k_scale (k_view P kw ibs)
      (bias_view P bias ibs) ibs i) a

/-- The writes phase 2 performs into the per-thread softmax scratch:
iteration `(ibs, i = 16*it)` runs on thread `sched ibs it` and fills that
thread's `head_num * 16 * N_pad64` u8 bytes. -/
def ws_threads_writes (P : static_dims) (mk : micro_kernels)
    (sched : Nat → Nat → Nat) (src_q : Nat → Int) (q_scale k_scale : Nat → ℚ)
    (kw : Nat → Int) (bias : Nat → ℚ) : List (MemWrite Int) :=
  (List.range P.batch_size_).flatMap fun ibs =>
  (List.range (num_blk16 P.M_)).flatMap fun it =>
  (List.range (P.head_num_ * (16 * pad_to P.N_ 64))).map fun o =>
    ⟨sched ibs it * tmp_thread_size P + o,
     qk_out P mk src_q q_scale k_scale kw bias ibs (16 * it) o⟩

/-- The writes of the AV calls into the caller's output tensor: iteration
`(ibs, i = 16*it)` writes, per head `h`, a 16-row block at
`curr_dst + h*head_size` with row stride `ld_dst = head_size*head_num`. -/
def dst_writes (P : static_dims) (mk : micro_kernels) (src_q : Nat → Int)
    (q_scale k_scale : Nat → ℚ) (kw : Nat → Int) (vw : Nat → Int)
    (vsw : Nat → ℚ) (bias : Nat → ℚ) : List (MemWrite Int) :=
  (List.range P.batch_size_).flatMap fun ibs =>
  (List.range (num_blk16 P.M_)).flatMap fun it =>
  (List.range P.head_num_).flatMap fun h =>
  (List.range 16).flatMap fun r =>
  (List.range P.head_size_).map fun c =>
    ⟨(ibs * P.M_ + 16 * it) * (P.head_size_ * P.head_num_) +
       r * (P.head_size_ * P.head_num_) + h * P.head_size_ + c,
     mk.axv_dst
       (mm_av_args P
         (qk_out P mk src_q q_scale k_scale kw bias ibs (16 * it))
         (v_view P vw ibs) (v_scale_view P vsw ibs))
       h r c⟩

/-- The writes of the AV calls into the caller's output-scale vector:
iteration `(ibs, i = 16*it)` writes 16 row scales at
`dst_scale + ibs*M + i`. -/
def dst_scale_writes (P : static_dims) (mk : micro_kernels) (src_q : Nat → Int)
    (q_scale k_scale : Nat → ℚ) (kw : Nat → Int) (vw : Nat → Int)
    (vsw : Nat → ℚ) (bias : Nat → ℚ) : List (MemWrite ℚ) :=
  (List.range P.batch_size_).flatMap fun ibs =>
  (List.range (num_blk16 P.M_)).flatMap fun it =>
  (List.range 16).map fun r =>
    ⟨ibs * P.M_ + 16 * it + r,
     mk.axv_scale
       (mm_av_args P
         (qk_out P mk src_q q_scale k_scale kw bias ibs (16 * it))
         (v_view P vw ibs) (v_scale_view P vsw ibs))
       r⟩

/-- The whole `execute` call (lines 137-298): resolve the dimensions, run
the phase-1 layout transforms into the workspace, prepare (or alias) the
mask, then run the phase-2 fused-attention loop, writing the caller's
output tensor and output-scale vector. `sched` assigns each phase-2
iteration its OpenMP thread. All other buffers are untouched. -/
def execute_model (sd : static_dims) (mk : micro_kernels)
    (sched : Nat → Nat → Nat) (rt : dyn_shape_reads) (st : exec_buffers) :
    exec_buffers :=
  let P := resolve_dims sd rt
  let ws_k1 := applyWrites (ws_k_writes P mk st.src_k) st.ws_k
  let ws_v1 := applyWrites (ws_v_writes P mk st.src_v st.v_scale) st.ws_v
  let ws_vs1 := applyWrites (ws_v_scale_writes P mk st.src_v st.v_scale) st.ws_v_scale
  let ws_m1 := applyWrites (ws_mask_writes P st.mask) st.ws_mask
  let bias := qk_bias_base P st.mask ws_m1
  { st with
    ws_k := ws_k1
    ws_v := ws_v1
    ws_v_scale := ws_vs1
    ws_mask := ws_m1
    ws_threads := applyWrites
      (ws_threads_writes P mk sched st.src_q st.q_scale st.k_scale ws_k1 bias)
      st.ws_threads
    dst := applyWrites
      (dst_writes P mk st.src_q st.q_scale st.k_scale ws_k1 ws_v1 ws_vs1 bias)
      st.dst
    dst_scale := applyWrites
      (dst_scale_writes P mk st.src_q st.q_scale st.k_scale ws_k1 ws_v1 ws_vs1 bias)
      st.dst_scale }

/-! ## C10: execute writes only Output, Output-scale and Workspace -/

/-- C10: an `execute` call leaves the Query, Key, Value, mask and
Query/Key/Value-scale buffers untouched — only the output tensor, the
output-scale vector and the workspace regions are written. In particular,
in the aliasing branch (`N == N_pad16`), where the caller's mask pointer is
stored into the non-const `tmp_mask` variable, no write occurs through it:
the mask buffer is unchanged in every branch. -/
theorem execute_writes_only_outputs_and_workspace (sd : static_dims)
    (mk : micro_kernels) (sched : Nat → Nat → Nat) (rt : dyn_shape_reads)
    (st : exec_buffers) :
    (execute_model sd mk sched rt st).src_q = st.src_q ∧
    (execute_model sd mk sched rt st).src_k = st.src_k ∧
    (execute_model sd mk sched rt st).src_v = st.src_v ∧
    (execute_model sd mk sched rt st).mask = st.mask ∧
    (execute_model sd mk sched rt st).q_scale = st.q_scale ∧
    (execute_model sd mk sched rt st).k_scale = st.k_scale ∧
    (execute_model sd mk sched rt st).v_scale = st.v_scale :=
  ⟨rfl, rfl, rfl, rfl, rfl, rfl, rfl⟩

/-! ## C5: mask padding and aliasing -/

/-- Evaluation of the padded-mask region after the copy loop: inside batch
row `ibs`, the first `N` entries are the caller's mask values and the rest
of the `N_pad16` row is the `-1000.0` sentinel. -/
theorem ws_mask_writes_eval (P : static_dims) (mask ws0 : Nat → ℚ)
    (hne : P.N_ ≠ pad_to P.N_ 16) {ibs j : Nat}
    (hibs : ibs < P.batch_size_) (hj : j < pad_to P.N_ 16) :
    applyWrites (ws_mask_writes P mask) ws0 (ibs * pad_to P.N_ 16 + j) =
      if j < P.N_ then mask (ibs * P.N_ + j) else -1000 := by
  have hNlt : P.N_ < pad_to P.N_ 16 :=
    Nat.lt_of_le_of_ne (le_pad_to (by omega) P.N_) hne
  apply applyWrites_eq_of_forall
  · simp only [ws_mask_writes, if_pos hne, List.map_flatMap, List.map_append,
      List.map_map, List.mem_flatMap, List.mem_append, List.mem_map,
      List.mem_range, Function.comp]
    by_cases hjN : j < P.N_
    · exact ⟨ibs, hibs, Or.inl ⟨j, hjN, rfl⟩⟩
    · refine ⟨ibs, hibs, Or.inr ⟨j - P.N_, by omega, ?_⟩⟩
      show ibs * pad_to P.N_ 16 + (P.N_ + (j - P.N_)) = ibs * pad_to P.N_ 16 + j
      omega
  · intro w hw haddr
    simp only [ws_mask_writes, if_pos hne, List.mem_flatMap, List.mem_append,
      List.mem_map, List.mem_range] at hw
    obtain ⟨ibs', hibs', hw | hw⟩ := hw
    · obtain ⟨j', hj', rfl⟩ := hw
      simp only at haddr ⊢
      obtain ⟨he1, he2⟩ := block_decomp_inj (Nat.lt_trans hj' hNlt) hj haddr
      rw [he1, he2, if_pos (he2 ▸ hj')]
    · obtain ⟨j', hj', rfl⟩ := hw
      simp only at haddr ⊢
      obtain ⟨he1, he2⟩ := block_decomp_inj (by omega) hj haddr
      rw [if_neg (by omega)]

/-- C5: if the resolved seq_k is not a multiple of 16, the padded-mask
workspace rows hold the caller's mask values in their first `seq_k` entries
and exactly `-1000.0` in the remaining `pad(seq_k,16) - seq_k` entries; if
it is a multiple of 16, no copy is made (the workspace mask region is
untouched) and the mask pointer used by the QK micro-kernel aliases the
caller's mask buffer directly. -/
theorem mask_padded_or_aliased (sd : static_dims) (mk : micro_kernels)
    (sched : Nat → Nat → Nat) (rt : dyn_shape_reads) (st : exec_buffers) :
    (¬ (16 ∣ (resolve_dims sd rt).N_) →
      ∀ ibs < (resolve_dims sd rt).batch_size_,
      ∀ j < pad_to (resolve_dims sd rt).N_ 16,
        (execute_model sd mk sched rt st).ws_mask
            (ibs * pad_to (resolve_dims sd rt).N_ 16 + j) =
          if j < (resolve_dims sd rt).N_ then
            st.mask (ibs * (resolve_dims sd rt).N_ + j)
          else -1000) ∧
    (16 ∣ (resolve_dims sd rt).N_ →
      qk_bias_base (resolve_dims sd rt) st.mask
          (applyWrites (ws_mask_writes (resolve_dims sd rt) st.mask) st.ws_mask) =
        st.mask ∧
      (execute_model sd mk sched rt st).ws_mask = st.ws_mask) := by
  constructor
  · intro hdvd ibs hibs j hj
    have hne : (resolve_dims sd rt).N_ ≠ pad_to (resolve_dims sd rt).N_ 16 := by
      intro he
      exact hdvd ((pad_to_eq_iff_dvd (by omega) _).mp he.symm)
    exact ws_mask_writes_eval (resolve_dims sd rt) st.mask st.ws_mask hne hibs hj
  · intro hdvd
    have heq : pad_to (resolve_dims sd rt).N_ 16 = (resolve_dims sd rt).N_ :=
      (pad_to_eq_iff_dvd (by omega) _).mpr hdvd
    constructor
    · simp [qk_bias_base, heq]
    · show applyWrites (ws_mask_writes (resolve_dims sd rt) st.mask) st.ws_mask =
        st.ws_mask
      rw [ws_mask_writes, if_neg (by omega)]
      rfl

/-- Trivial micro-kernel instances, used to instantiate witnesses. -/
def mk0 : micro_kernels where
  seq_cpy_k := fun _ _ => 0
  seq_cpy_v := fun _ _ => 0
  seq_cpy_v_scale := fun _ _ => 0
  qxk := fun _ _ => 0
  axv_dst := fun _ _ _ _ => 0
  axv_scale := fun _ _ => 0

/-- Concrete buffers used to instantiate witnesses. -/
def st0 : exec_buffers where
  src_q := fun _ => 1
  src_k := fun _ => 2
  mask := fun _ => 3
  src_v := fun _ => 4
  dst := fun _ => 5
  q_scale := fun _ => 6
  k_scale := fun _ => 7
  v_scale := fun _ => 8
  dst_scale := fun _ => 9
  ws_mask := fun _ => 10
  ws_k := fun _ => 11
  ws_v := fun _ => 12
  ws_v_scale := fun _ => 13
  ws_threads := fun _ => 14

/-- Witness for `mask_padded_or_aliased`: with seq_k 20, padding column 25
of the first batch row holds the sentinel. -/
theorem mask_padded_or_aliased_witness :
    (execute_model ⟨1, 1, 16, 64, 20⟩ mk0 (fun _ _ => 0) ⟨9, 9, 9, 9, 9⟩ st0).ws_mask
      25 = -1000 := by
  have h :=
    (mask_padded_or_aliased ⟨1, 1, 16, 64, 20⟩ mk0 (fun _ _ => 0) ⟨9, 9, 9, 9, 9⟩
      st0).1 (by decide) 0 (by decide) 25 (by decide)
  norm_num at h
  exact h

/-! ## Coverage: phase 1 overwrites every byte phase 2 may read -/

theorem head_tmp_k_size_eq (P : static_dims) :
    head_tmp_k_size P = (16 * pad_to P.head_size_ 64) * num_blk16 P.N_ := by
  unfold head_tmp_k_size
  rw [pad_to_16_eq]
  ring

theorem head_tmp_v_size_eq (P : static_dims) :
    head_tmp_v_size P = (16 * pad_to P.N_ 64) * num_blk16 P.head_size_ := by
  unfold head_tmp_v_size
  rw [pad_to_16_eq]
  ring

/-- Every index of the transposed-K region is written by the K-transpose
loop. -/
theorem ws_k_writes_covers (P : static_dims) (mk : micro_kernels)
    (src_k : Nat → Int) (a : Nat)
    (ha : a < P.batch_size_ * P.head_num_ * head_tmp_k_size P) :
    a ∈ (ws_k_writes P mk src_k).map MemWrite.addr := by
  have ha' : a < (P.batch_size_ * P.head_num_) *
      ((16 * pad_to P.head_size_ 64) * num_blk16 P.N_) := by
    rw [← head_tmp_k_size_eq]
    calc a < P.batch_size_ * P.head_num_ * head_tmp_k_size P := ha
      _ = P.batch_size_ * P.head_num_ * head_tmp_k_size P := rfl
  obtain ⟨g, hg, t, ht, o, ho, hsum⟩ := addr_decomp3 _ _ _ a ha'
  obtain ⟨ibs, hibs, ihn, hihn, hsplit⟩ := addr_decomp2 _ _ g hg
  simp only [ws_k_writes, List.map_flatMap, List.map_map, List.mem_flatMap,
    List.mem_map, List.mem_range, Function.comp]
  refine ⟨ibs, hibs, ihn, hihn, t, ht, o, ho, ?_⟩
  show (ibs * P.head_num_ + ihn) * head_tmp_k_size P +
      (t * (16 * pad_to P.head_size_ 64) + o) = a
  rw [hsplit, head_tmp_k_size_eq]
  exact hsum

/-- Every index of the transposed-V region is written by the V-transform
loop (by the live micro-kernel bytes or by the explicit zero fill). -/
theorem ws_v_writes_covers (P : static_dims) (mk : micro_kernels)
    (src_v : Nat → Int) (v_scale : Nat → ℚ) (a : Nat)
    (ha : a < P.batch_size_ * P.head_num_ * head_tmp_v_size P) :
    a ∈ (ws_v_writes P mk src_v v_scale).map MemWrite.addr := by
  have ha' : a < (P.batch_size_ * P.head_num_) *
      ((16 * pad_to P.N_ 64) * num_blk16 P.head_size_) := by
    rw [← head_tmp_v_size_eq]
    exact ha
  obtain ⟨g, hg, t, ht, o, ho, hsum⟩ := addr_decomp3 _ _ _ a ha'
  obtain ⟨ibs, hibs, ihn, hihn, hsplit⟩ := addr_decomp2 _ _ g hg
  simp only [ws_v_writes, List.map_flatMap, List.map_append, List.map_map,
    List.mem_flatMap, List.mem_append, List.mem_map, List.mem_range,
    Function.comp]
  refine ⟨ibs, hibs, ihn, hihn, t, ht, ?_⟩
  by_cases hlive : o < size_trq10n_v_block P.N_
  · refine Or.inl ⟨o, hlive, ?_⟩
    show (ibs * P.head_num_ + ihn) * head_tmp_v_size P +
        (t * (16 * pad_to P.N_ 64) + o) = a
    rw [hsplit, head_tmp_v_size_eq]
    exact hsum
  · have htrq : size_trq10n_v_block P.N_ ≤ o := Nat.le_of_not_lt hlive
    have e1 : size_trq10n_v_block P.N_ = 16 * pad_to P.N_ 4 := rfl
    have e2 : size_pad0_v_block P.N_ =
        pad_to P.N_ 64 * 16 - 16 * pad_to P.N_ 4 := rfl
    have hgap : size_pad0_v_block P.N_ ≠ 0 := by omega
    refine Or.inr ?_
    rw [if_pos hgap]
    simp only [List.mem_map, List.mem_range]
    refine ⟨_, ⟨o - size_trq10n_v_block P.N_, by omega, rfl⟩, ?_⟩
    show (ibs * P.head_num_ + ihn) * head_tmp_v_size P +
        (t * (16 * pad_to P.N_ 64) +
          (size_trq10n_v_block P.N_ + (o - size_trq10n_v_block P.N_))) = a
    have hoo : size_trq10n_v_block P.N_ + (o - size_trq10n_v_block P.N_) = o := by
      omega
    rw [hoo, hsplit, head_tmp_v_size_eq]
    exact hsum

/-- Every V-scale index the AV micro-kernel may read (the first `head_size`
entries of each head's padded scale vector) is written by the V-transform
loop. -/
theorem ws_v_scale_writes_covers (P : static_dims) (mk : micro_kernels)
    (src_v : Nat → Int) (v_scale : Nat → ℚ) (a : Nat)
    (ha : a < P.batch_size_ * P.head_num_ * head_tmp_v_scale_size P)
    (hc : a % head_tmp_v_scale_size P < P.head_size_) :
    a ∈ (ws_v_scale_writes P mk src_v v_scale).map MemWrite.addr := by
  have ha' : a < (P.batch_size_ * P.head_num_) * head_tmp_v_scale_size P := by
    calc a < P.batch_size_ * P.head_num_ * head_tmp_v_scale_size P := ha
      _ = P.batch_size_ * P.head_num_ * head_tmp_v_scale_size P := rfl
  obtain ⟨g, hg, c, hcW, hsum⟩ := addr_decomp2 _ _ a ha'
  have hcmod : a % head_tmp_v_scale_size P = c := by
    rw [← hsum, Nat.add_comm, Nat.add_mul_mod_self_right, Nat.mod_eq_of_lt hcW]
  rw [hcmod] at hc
  obtain ⟨ibs, hibs, ihn, hihn, hsplit⟩ := addr_decomp2 _ _ g hg
  have hdm := Nat.div_add_mod c 16
  have hpad : c < num_blk16 P.head_size_ * 16 := by
    calc c < P.head_size_ := hc
      _ ≤ pad_to P.head_size_ 16 := le_pad_to (by omega) _
      _ = num_blk16 P.head_size_ * 16 := pad_to_16_eq _
  simp only [ws_v_scale_writes, List.map_flatMap, List.map_map,
    List.mem_flatMap, List.mem_map, List.mem_range, Function.comp]
  refine ⟨ibs, hibs, ihn, hihn, c / 16, ?_, c % 16, ?_, ?_⟩
  · rw [Nat.div_lt_iff_lt_mul (by omega)]
    exact hpad
  · have h16 : c % 16 < 16 := Nat.mod_lt c (by omega)
    omega
  · show (ibs * P.head_num_ + ihn) * head_tmp_v_scale_size P +
        (16 * (c / 16) + c % 16) = a
    rw [hsplit, hdm]
    exact hsum

/-- Every index of the padded-mask region is written when the copy branch
is taken. -/
theorem ws_mask_writes_covers (P : static_dims) (mask : Nat → ℚ)
    (hne : P.N_ ≠ pad_to P.N_ 16) (a : Nat)
    (ha : a < P.batch_size_ * pad_to P.N_ 16) :
    a ∈ (ws_mask_writes P mask).map MemWrite.addr := by
  obtain ⟨ibs, hibs, j, hj, hsum⟩ := addr_decomp2 _ _ a ha
  simp only [ws_mask_writes, if_pos hne, List.map_flatMap, List.map_append,
    List.map_map, List.mem_flatMap, List.mem_append, List.mem_map,
    List.mem_range, Function.comp]
  refine ⟨ibs, hibs, ?_⟩
  by_cases hjN : j < P.N_
  · exact Or.inl ⟨j, hjN, hsum⟩
  · refine Or.inr ⟨j - P.N_, by omega, ?_⟩
    show ibs * pad_to P.N_ 16 + (P.N_ + (j - P.N_)) = a
    have hx : P.N_ + (j - P.N_) = j := by omega
    rw [hx]
    exact hsum

/-! ## C8: zero fill of the V-block padding gap -/

/-- After the V-transform loop, every byte of a block's padding gap
(between the live `16 * pad_to(seq_k,4)` bytes and the
`16 * pad_to(seq_k,64)` tile boundary) is zero: the only writes that hit
such an address are the explicit `std::fill_n` zeros. -/
theorem ws_v_writes_eval_pad (P : static_dims) (mk : micro_kernels)
    (src_v : Nat → Int) (v_scale : Nat → ℚ) (ws0 : Nat → Int)
    {ibs ihn t idx : Nat} (hibs : ibs < P.batch_size_)
    (hihn : ihn < P.head_num_) (ht : t < num_blk16 P.head_size_)
    (hlo : size_trq10n_v_block P.N_ ≤ idx)
    (hhi : idx < 16 * pad_to P.N_ 64) :
    applyWrites (ws_v_writes P mk src_v v_scale) ws0
      ((ibs * P.head_num_ + ihn) * head_tmp_v_size P +
        (t * (16 * pad_to P.N_ 64) + idx)) = 0 := by
  have e1 : size_trq10n_v_block P.N_ = 16 * pad_to P.N_ 4 := rfl
  have h4 : pad_to P.N_ 4 ≤ pad_to P.N_ 64 := pad_to_4_le_64 P.N_
  have hinner : t * (16 * pad_to P.N_ 64) + idx < head_tmp_v_size P := by
    rw [head_tmp_v_size_eq]
    have := block_addr_lt ht hhi
    calc t * (16 * pad_to P.N_ 64) + idx
        < num_blk16 P.head_size_ * (16 * pad_to P.N_ 64) := this
      _ = 16 * pad_to P.N_ 64 * num_blk16 P.head_size_ := by ring
  apply applyWrites_eq_of_forall
  · apply ws_v_writes_covers
    exact block_addr_lt (block_addr_lt hibs hihn) hinner
  · intro w hw haddr
    simp only [ws_v_writes, List.mem_flatMap, List.mem_append, List.mem_map,
      List.mem_range] at hw
    obtain ⟨ibs', hibs', ihn', hihn', t', ht', hw⟩ := hw
    rcases hw with ⟨o', ho', rfl⟩ | hw2
    · -- a live write cannot hit a padding-gap address
      exfalso
      simp only at haddr
      have ho'64 : o' < 16 * pad_to P.N_ 64 := by omega
      have h1 : t' * (16 * pad_to P.N_ 64) + o' < head_tmp_v_size P := by
        rw [head_tmp_v_size_eq]
        have := block_addr_lt ht' ho'64
        calc t' * (16 * pad_to P.N_ 64) + o'
            < num_blk16 P.head_size_ * (16 * pad_to P.N_ 64) := this
          _ = 16 * pad_to P.N_ 64 * num_blk16 P.head_size_ := by ring
      obtain ⟨_, hr⟩ := block_decomp_inj h1 hinner haddr
      obtain ⟨_, ho_eq⟩ := block_decomp_inj ho'64 hhi hr
      omega
    · by_cases hgap : size_pad0_v_block P.N_ ≠ 0
      · rw [if_pos hgap] at hw2
        simp only [List.mem_map, List.mem_range] at hw2
        obtain ⟨o', _, rfl⟩ := hw2
        rfl
      · rw [if_neg hgap] at hw2
        simp at hw2

/-- C8: during the phase-1 Value transform, for each `(batch, head)` pair
and each 16-column block of head_size, every byte strictly between the live
transposed region (`16 * pad(seq_k,4)` bytes) and the padded tile boundary
(`16 * pad(seq_k,64)` bytes) of that block's destination buffer is zero
after `execute`'s phase 1 (the gap is exactly the range these indices
inhabit, and is zero-filled whenever non-empty), so the AV matmul reads
only zeros in the padded region. -/
theorem v_padding_zero_filled (sd : static_dims) (mk : micro_kernels)
    (sched : Nat → Nat → Nat) (rt : dyn_shape_reads) (st : exec_buffers) :
    ∀ ibs < (resolve_dims sd rt).batch_size_,
    ∀ ihn < (resolve_dims sd rt).head_num_,
    ∀ t < num_blk16 (resolve_dims sd rt).head_size_,
    ∀ idx, size_trq10n_v_block (resolve_dims sd rt).N_ ≤ idx →
      idx < 16 * pad_to (resolve_dims sd rt).N_ 64 →
      (execute_model sd mk sched rt st).ws_v
        ((ibs * (resolve_dims sd rt).head_num_ + ihn) *
            head_tmp_v_size (resolve_dims sd rt) +
          (t * (16 * pad_to (resolve_dims sd rt).N_ 64) + idx)) = 0 := by
  intro ibs hibs ihn hihn t ht idx hlo hhi
  exact ws_v_writes_eval_pad (resolve_dims sd rt) mk st.src_v st.v_scale
    st.ws_v hibs hihn ht hlo hhi

/-- Witness for `v_padding_zero_filled`: seq_k 20 gives a live region of
320 bytes per block and a 1024-byte tile, so byte 320 of the first block is
zero. -/
theorem v_padding_zero_filled_witness :
    (execute_model ⟨1, 1, 16, 64, 20⟩ mk0 (fun _ _ => 0) ⟨9, 9, 9, 9, 9⟩
      st0).ws_v 320 = 0 := by
  have h := v_padding_zero_filled ⟨1, 1, 16, 64, 20⟩ mk0 (fun _ _ => 0)
    ⟨9, 9, 9, 9, 9⟩ st0 0 (by decide) 0 (by decide) 0 (by decide) 320
    (by decide) (by decide)
  norm_num at h
  exact h

/-! ## C9: determinism of execute

The output tensor and output-scale vector an execute call writes depend
only on the caller's input buffers (and the immutable kernel objects) —
not on the initial contents of the workspace, not on the initial contents
of the output buffers, and not on the thread scheduling. The key fact is
that phase 1 fully overwrites every workspace byte phase 2 may read. -/

theorem k_view_indep (P : static_dims) (mk : micro_kernels) (src_k : Nat → Int)
    (ws₁ ws₂ : Nat → Int) {ibs : Nat} (hibs : ibs < P.batch_size_) :
    k_view P (applyWrites (ws_k_writes P mk src_k) ws₁) ibs =
      k_view P (applyWrites (ws_k_writes P mk src_k) ws₂) ibs := by
  funext a
  by_cases hc : a < P.head_num_ * head_tmp_k_size P
  · simp only [k_view, if_pos hc]
    apply applyWrites_mem_congr
    apply ws_k_writes_covers
    calc ibs * (P.head_num_ * head_tmp_k_size P) + a
        < P.batch_size_ * (P.head_num_ * head_tmp_k_size P) :=
          block_addr_lt hibs hc
      _ = P.batch_size_ * P.head_num_ * head_tmp_k_size P := by ring
  · simp only [k_view, if_neg hc]

theorem v_view_indep (P : static_dims) (mk : micro_kernels) (src_v : Nat → Int)
    (v_scale : Nat → ℚ) (ws₁ ws₂ : Nat → Int) {ibs : Nat}
    (hibs : ibs < P.batch_size_) :
    v_view P (applyWrites (ws_v_writes P mk src_v v_scale) ws₁) ibs =
      v_view P (applyWrites (ws_v_writes P mk src_v v_scale) ws₂) ibs := by
  funext a
  by_cases hc : a < P.head_num_ * head_tmp_v_size P
  · simp only [v_view, if_pos hc]
    apply applyWrites_mem_congr
    apply ws_v_writes_covers
    calc ibs * (P.head_num_ * head_tmp_v_size P) + a
        < P.batch_size_ * (P.head_num_ * head_tmp_v_size P) :=
          block_addr_lt hibs hc
      _ = P.batch_size_ * P.head_num_ * head_tmp_v_size P := by ring
  · simp only [v_view, if_neg hc]

theorem v_scale_view_indep (P : static_dims) (mk : micro_kernels)
    (src_v : Nat → Int) (v_scale : Nat → ℚ) (ws₁ ws₂ : Nat → ℚ) {ibs : Nat}
    (hibs : ibs < P.batch_size_) :
    v_scale_view P (applyWrites (ws_v_scale_writes P mk src_v v_scale) ws₁) ibs =
      v_scale_view P (applyWrites (ws_v_scale_writes P mk src_v v_scale) ws₂) ibs := by
  funext a
  by_cases hc : a < P.head_num_ * head_tmp_v_scale_size P ∧
      a % head_tmp_v_scale_size P < P.head_size_
  · simp only [v_scale_view, if_pos hc]
    apply applyWrites_mem_congr
    apply ws_v_scale_writes_covers
    · calc ibs * (P.head_num_ * head_tmp_v_scale_size P) + a
          < P.batch_size_ * (P.head_num_ * head_tmp_v_scale_size P) :=
            block_addr_lt hibs hc.1
        _ = P.batch_size_ * P.head_num_ * head_tmp_v_scale_size P := by ring
    · have hx : ibs * (P.head_num_ * head_tmp_v_scale_size P) + a =
          a + ibs * P.head_num_ * head_tmp_v_scale_size P := by ring
      rw [hx, Nat.add_mul_mod_self_right]
      exact hc.2
  · simp only [v_scale_view, if_neg hc]

theorem bias_view_indep (P : static_dims) (mask : Nat → ℚ) (ws₁ ws₂ : Nat → ℚ)
    {ibs : Nat} (hibs : ibs < P.batch_size_) :
    bias_view P (qk_bias_base P mask (applyWrites (ws_mask_writes P mask) ws₁)) ibs =
      bias_view P (qk_bias_base P mask (applyWrites (ws_mask_writes P mask) ws₂)) ibs := by
  unfold qk_bias_base
  by_cases hne : P.N_ ≠ pad_to P.N_ 16
  · rw [if_pos hne, if_pos hne]
    funext a
    by_cases hc : a < pad_to P.N_ 16
    · simp only [bias_view, if_pos hc]
      apply applyWrites_mem_congr
      apply ws_mask_writes_covers P mask hne
      exact block_addr_lt hibs hc
    · simp only [bias_view, if_neg hc]
  · rw [if_neg hne, if_neg hne]

/-- The addresses the AV calls write in the output tensor (independent of
any buffer contents). -/
def dst_write_addrs (P : static_dims) : List Nat :=
  (List.range P.batch_size_).flatMap fun ibs =>
  (List.range (num_blk16 P.M_)).flatMap fun it =>
  (List.range P.head_num_).flatMap fun h =>
  (List.range 16).flatMap fun r =>
  (List.range P.head_size_).map fun c =>
    (ibs * P.M_ + 16 * it) * (P.head_size_ * P.head_num_) +
      r * (P.head_size_ * P.head_num_) + h * P.head_size_ + c

/-- The addresses the AV calls write in the output-scale vector. -/
def dst_scale_write_addrs (P : static_dims) : List Nat :=
  (List.range P.batch_size_).flatMap fun ibs =>
  (List.range (num_blk16 P.M_)).flatMap fun it =>
  (List.range 16).map fun r => ibs * P.M_ + 16 * it + r

theorem dst_writes_map_addr (P : static_dims) (mk : micro_kernels)
    (src_q : Nat → Int) (qs ks : Nat → ℚ) (kw vw : Nat → Int) (vsw bias : Nat → ℚ) :
    (dst_writes P mk src_q qs ks kw vw vsw bias).map MemWrite.addr =
      dst_write_addrs P := by
  simp only [dst_writes, dst_write_addrs, List.map_flatMap, List.map_map,
    Function.comp_def]

theorem dst_scale_writes_map_addr (P : static_dims) (mk : micro_kernels)
    (src_q : Nat → Int) (qs ks : Nat → ℚ) (kw vw : Nat → Int) (vsw bias : Nat → ℚ) :
    (dst_scale_writes P mk src_q qs ks kw vw vsw bias).map MemWrite.addr =
      dst_scale_write_addrs P := by
  simp only [dst_scale_writes, dst_scale_write_addrs, List.map_flatMap,
    List.map_map, Function.comp_def]

theorem qk_out_congr (P : static_dims) (mk : micro_kernels) (src_q : Nat → Int)
    (qs ks : Nat → ℚ) {kw kw' : Nat → Int} {bias bias' : Nat → ℚ} {ibs : Nat}
    (hk : k_view P kw ibs = k_view P kw' ibs)
    (hb : bias_view P bias ibs = bias_view P bias' ibs) (i : Nat) :
    qk_out P mk src_q qs ks kw bias ibs i =
      qk_out P mk src_q qs ks kw' bias' ibs i := by
  unfold qk_out
  rw [hk, hb]

theorem dst_writes_congr (P : static_dims) (mk : micro_kernels)
    (src_q : Nat → Int) (qs ks : Nat → ℚ) {kw kw' vw vw' : Nat → Int}
    {vsw vsw' bias bias' : Nat → ℚ}
    (hk : ∀ ibs < P.batch_size_, k_view P kw ibs = k_view P kw' ibs)
    (hv : ∀ ibs < P.batch_size_, v_view P vw ibs = v_view P vw' ibs)
    (hvs : ∀ ibs < P.batch_size_,
      v_scale_view P vsw ibs = v_scale_view P vsw' ibs)
    (hb : ∀ ibs < P.batch_size_, bias_view P bias ibs = bias_view P bias' ibs) :
    dst_writes P mk src_q qs ks kw vw vsw bias =
      dst_writes P mk src_q qs ks kw' vw' vsw' bias' := by
  unfold dst_writes
  apply list_flatMap_congr
  intro ibs hibs
  rw [List.mem_range] at hibs
  apply list_flatMap_congr
  intro it _
  rw [qk_out_congr P mk src_q qs ks (hk ibs hibs) (hb ibs hibs) (16 * it),
    hv ibs hibs, hvs ibs hibs]

theorem dst_scale_writes_congr (P : static_dims) (mk : micro_kernels)
    (src_q : Nat → Int) (qs ks : Nat → ℚ) {kw kw' vw vw' : Nat → Int}
    {vsw vsw' bias bias' : Nat → ℚ}
    (hk : ∀ ibs < P.batch_size_, k_view P kw ibs = k_view P kw' ibs)
    (hv : ∀ ibs < P.batch_size_, v_view P vw ibs = v_view P vw' ibs)
    (hvs : ∀ ibs < P.batch_size_,
      v_scale_view P vsw ibs = v_scale_view P vsw' ibs)
    (hb : ∀ ibs < P.batch_size_, bias_view P bias ibs = bias_view P bias' ibs) :
    dst_scale_writes P mk src_q qs ks kw vw vsw bias =
      dst_scale_writes P mk src_q qs ks kw' vw' vsw' bias' := by
  unfold dst_scale_writes
  apply list_flatMap_congr
  intro ibs hibs
  rw [List.mem_range] at hibs
  apply list_flatMap_congr
  intro it _
  rw [qk_out_congr P mk src_q qs ks (hk ibs hibs) (hb ibs hibs) (16 * it),
    hv ibs hibs, hvs ibs hibs]

/-- C9: two execute calls on the same kernel with identical input-buffer
contents — but independently allocated (arbitrary-content) workspaces,
arbitrary prior output-buffer contents and arbitrary thread schedules —
write bit-identical values at every output-tensor address and every
output-scale address they write. Execute carries no mutable state across
calls: everything the outputs depend on is an input of this call. -/
theorem execute_deterministic (sd : static_dims) (mk : micro_kernels)
    (rt : dyn_shape_reads) (sched sched' : Nat → Nat → Nat)
    (st st' : exec_buffers)
    (hq : st'.src_q = st.src_q) (hkk : st'.src_k = st.src_k)
    (hmm : st'.mask = st.mask) (hvv : st'.src_v = st.src_v)
    (hqs : st'.q_scale = st.q_scale) (hks : st'.k_scale = st.k_scale)
    (hvs : st'.v_scale = st.v_scale) :
    (∀ a ∈ dst_write_addrs (resolve_dims sd rt),
      (execute_model sd mk sched rt st).dst a =
        (execute_model sd mk sched' rt st').dst a) ∧
    (∀ a ∈ dst_scale_write_addrs (resolve_dims sd rt),
      (execute_model sd mk sched rt st).dst_scale a =
        (execute_model sd mk sched' rt st').dst_scale a) := by
  have hkview : ∀ ibs < (resolve_dims sd rt).batch_size_,
      k_view (resolve_dims sd rt)
        (applyWrites (ws_k_writes (resolve_dims sd rt) mk st.src_k) st.ws_k) ibs =
      k_view (resolve_dims sd rt)
        (applyWrites (ws_k_writes (resolve_dims sd rt) mk st.src_k) st'.ws_k) ibs :=
    fun ibs hibs => k_view_indep _ mk st.src_k st.ws_k st'.ws_k hibs
  have hvview : ∀ ibs < (resolve_dims sd rt).batch_size_,
      v_view (resolve_dims sd rt)
        (applyWrites (ws_v_writes (resolve_dims sd rt) mk st.src_v st.v_scale)
          st.ws_v) ibs =
      v_view (resolve_dims sd rt)
        (applyWrites (ws_v_writes (resolve_dims sd rt) mk st.src_v st.v_scale)
          st'.ws_v) ibs :=
    fun ibs hibs => v_view_indep _ mk st.src_v st.v_scale st.ws_v st'.ws_v hibs
  have hvsview : ∀ ibs < (resolve_dims sd rt).batch_size_,
      v_scale_view (resolve_dims sd rt)
        (applyWrites (ws_v_scale_writes (resolve_dims sd rt) mk st.src_v
          st.v_scale) st.ws_v_scale) ibs =
      v_scale_view (resolve_dims sd rt)
        (applyWrites (ws_v_scale_writes (resolve_dims sd rt) mk st.src_v
          st.v_scale) st'.ws_v_scale) ibs :=
    fun ibs hibs =>
      v_scale_view_indep _ mk st.src_v st.v_scale st.ws_v_scale st'.ws_v_scale hibs
  have hbview : ∀ ibs < (resolve_dims sd rt).batch_size_,
      bias_view (resolve_dims sd rt)
        (qk_bias_base (resolve_dims sd rt) st.mask
          (applyWrites (ws_mask_writes (resolve_dims sd rt) st.mask) st.ws_mask)) ibs =
      bias_view (resolve_dims sd rt)
        (qk_bias_base (resolve_dims sd rt) st.mask
          (applyWrites (ws_mask_writes (resolve_dims sd rt) st.mask) st'.ws_mask)) ibs :=
    fun ibs hibs => bias_view_indep _ st.mask st.ws_mask st'.ws_mask hibs
  constructor
  · intro a hmem
    show applyWrites (dst_writes (resolve_dims sd rt) mk st.src_q st.q_scale
        st.k_scale
        (applyWrites (ws_k_writes (resolve_dims sd rt) mk st.src_k) st.ws_k)
        (applyWrites (ws_v_writes (resolve_dims sd rt) mk st.src_v st.v_scale) st.ws_v)
        (applyWrites (ws_v_scale_writes (resolve_dims sd rt) mk st.src_v st.v_scale)
          st.ws_v_scale)
        (qk_bias_base (resolve_dims sd rt) st.mask
          (applyWrites (ws_mask_writes (resolve_dims sd rt) st.mask) st.ws_mask)))
        st.dst a =
      applyWrites (dst_writes (resolve_dims sd rt) mk st'.src_q st'.q_scale
        st'.k_scale
        (applyWrites (ws_k_writes (resolve_dims sd rt) mk st'.src_k) st'.ws_k)
        (applyWrites (ws_v_writes (resolve_dims sd rt) mk st'.src_v st'.v_scale) st'.ws_v)
        (applyWrites (ws_v_scale_writes (resolve_dims sd rt) mk st'.src_v st'.v_scale)
          st'.ws_v_scale)
        (qk_bias_base (resolve_dims sd rt) st'.mask
          (applyWrites (ws_mask_writes (resolve_dims sd rt) st'.mask) st'.ws_mask)))
        st'.dst a
    rw [hq, hkk, hmm, hvv, hqs, hks, hvs]
    rw [← dst_writes_congr (resolve_dims sd rt) mk st.src_q st.q_scale st.k_scale
      hkview hvview hvsview hbview]
    apply applyWrites_mem_congr
    rw [dst_writes_map_addr]
    exact hmem
  · intro a hmem
    show applyWrites (dst_scale_writes (resolve_dims sd rt) mk st.src_q st.q_scale
        st.k_scale
        (applyWrites (ws_k_writes (resolve_dims sd rt) mk st.src_k) st.ws_k)
        (applyWrites (ws_v_writes (resolve_dims sd rt) mk st.src_v st.v_scale) st.ws_v)
        (applyWrites (ws_v_scale_writes (resolve_dims sd rt) mk st.src_v st.v_scale)
          st.ws_v_scale)
        (qk_bias_base (resolve_dims sd rt) st.mask
          (applyWrites (ws_mask_writes (resolve_dims sd rt) st.mask) st.ws_mask)))
        st.dst_scale a =
      applyWrites (dst_scale_writes (resolve_dims sd rt) mk st'.src_q st'.q_scale
        st'.k_scale
        (applyWrites (ws_k_writes (resolve_dims sd rt) mk st'.src_k) st'.ws_k)
        (applyWrites (ws_v_writes (resolve_dims sd rt) mk st'.src_v st'.v_scale) st'.ws_v)
        (applyWrites (ws_v_scale_writes (resolve_dims sd rt) mk st'.src_v st'.v_scale)
          st'.ws_v_scale)
        (qk_bias_base (resolve_dims sd rt) st'.mask
          (applyWrites (ws_mask_writes (resolve_dims sd rt) st'.mask) st'.ws_mask)))
        st'.dst_scale a
    rw [hq, hkk, hmm, hvv, hqs, hks, hvs]
    rw [← dst_scale_writes_congr (resolve_dims sd rt) mk st.src_q st.q_scale st.k_scale
      hkview hvview hvsview hbview]
    apply applyWrites_mem_congr
    rw [dst_scale_writes_map_addr]
    exact hmem

/-- Witness for `execute_deterministic`: on a 1-element problem, two calls
with different workspace contents, different prior output contents and
different schedules agree at output address 0. -/
theorem execute_deterministic_witness :
    (execute_model ⟨1, 1, 1, 1, 1⟩ mk0 (fun _ _ => 0) ⟨0, 0, 0, 0, 0⟩ st0).dst 0 =
      (execute_model ⟨1, 1, 1, 1, 1⟩ mk0 (fun _ _ => 1) ⟨0, 0, 0, 0, 0⟩
        { st0 with
          dst := fun _ => 70
          dst_scale := fun _ => 71
          ws_mask := fun _ => 72
          ws_k := fun _ => 73
          ws_v := fun _ => 74
          ws_v_scale := fun _ => 75
          ws_threads := fun _ => 76 }).dst 0 :=
  (execute_deterministic ⟨1, 1, 1, 1, 1⟩ mk0 ⟨0, 0, 0, 0, 0⟩ (fun _ _ => 0)
    (fun _ _ => 1) st0
    { st0 with
      dst := fun _ => 70
      dst_scale := fun _ => 71
      ws_mask := fun _ => 72
      ws_k := fun _ => 73
      ws_v := fun _ => 74
      ws_v_scale := fun _ => 75
      ws_threads := fun _ => 76 }
    rfl rfl rfl rfl rfl rfl rfl).1 0 (by decide)

end DynQuantMha
